import Mathlib

/-!
Verification development for the ttt-agent repository.

This file gives a shallow embedding, in Lean 4, of the parts of the source
relevant to the frozen claims:

- `src/tools/registry.py` (`ToolRegistry`),
- `src/agent/core.py` (`TTTAgent` orchestration nodes, guards, the
  approval API, and the LangGraph workflow wiring),
- `src/memory/manager.py` (`MemoryManager.retrieve_relevant_context`),
- `src/agent/gemini_client.py` (`GeminiClient.generate_plan` response
  handling).

Python dicts are modelled as association lists with Python insertion-order
semantics (assignment to an existing key keeps its position and replaces its
value; assignment to a fresh key appends).  Exceptions are modelled with
`Except String`.  External I/O (the LLM transport, ChromaDB queries, memory
writes) is exogenous: its outcome is passed in as an argument, an `Except`
value standing for "returned normally" / "raised".
-/

namespace TTT

/-- Model of a Python `dict` lookup on an association list (first match). -/
def dictGet {α : Type} : List (String × α) → String → Option α
  | [], _ => none
  | (k, v) :: rest, key => if k = key then some v else dictGet rest key

/-- Model of Python `dict` assignment `d[key] = v`: replace the value in
place when the key exists, otherwise append (Python preserves insertion
order and keeps the original position on overwrite). -/
def dictInsert {α : Type} : List (String × α) → String → α → List (String × α)
  | [], key, v => [(key, v)]
  | (k, w) :: rest, key, v =>
      if k = key then (k, v) :: rest else (k, w) :: dictInsert rest key v

theorem dictGet_dictInsert_self {α : Type} (m : List (String × α)) (k : String) (v : α) :
    dictGet (dictInsert m k v) k = some v := by
  induction m with
  | nil => simp [dictInsert, dictGet]
  | cons hd tl ih =>
      obtain ⟨k2, w⟩ := hd
      by_cases h : k2 = k
      · simp [dictInsert, dictGet, h]
      · simp [dictInsert, dictGet, h, ih]

theorem dictGet_dictInsert_ne {α : Type} (m : List (String × α)) (k k2 : String) (v : α)
    (h : k2 ≠ k) : dictGet (dictInsert m k v) k2 = dictGet m k2 := by
  induction m with
  | nil => simp [dictInsert, dictGet, Ne.symm h]
  | cons hd tl ih =>
      obtain ⟨k3, w⟩ := hd
      by_cases h3 : k3 = k
      · subst h3
        simp [dictInsert, dictGet, Ne.symm h]
      · simp [dictInsert, dictGet, h3, ih]

theorem dictGet_append_ne {α : Type} (m : List (String × α)) (k k2 : String) (v : α)
    (h : k2 ≠ k) : dictGet (m ++ [(k, v)]) k2 = dictGet m k2 := by
  induction m with
  | nil => simp [dictGet, Ne.symm h]
  | cons hd tl ih =>
      obtain ⟨k3, w⟩ := hd
      by_cases h3 : k3 = k2
      · simp [dictGet, h3]
      · simp [dictGet, h3, ih]

/-- `ExecutionPhase` enum from `src/agent/core.py`. -/
inductive ExecutionPhase
  | IDLE
  | PLANNING
  | TOOL_SELECTION
  | AWAITING_APPROVAL
  | EXECUTING
  | REFLECTING
  | COMPLETED
  | ERROR
deriving DecidableEq

/-- `ToolPermission` enum from `src/agent/core.py`. -/
inductive ToolPermission
  | AUTO_APPROVE
  | REQUIRE_CONFIRMATION
  | BLOCKED
deriving DecidableEq

deriving instance DecidableEq for Except

/-- `ToolDefinition` dataclass from `src/agent/core.py`.  The executable
capability `function` takes no arguments in the source
(`await tool_def.function()`); it is modelled by its outcome, `.ok r` for a
normal return with result `r` and `.error e` for a raised exception.  The
`parameters_schema` dict is modelled as a list of string pairs. -/
structure ToolDefinition where
  name : String
  description : String
  function : Except String String
  parameters_schema : List (String × String)
  permission : ToolPermission
  category : String
  risk_level : Nat
deriving DecidableEq

/-- `ToolRegistry` from `src/tools/registry.py`: the `_tools` dict (name to
definition) and the `_categories` dict (category to list of names). -/
structure ToolRegistry where
  tools : List (String × ToolDefinition)
  categories : List (String × List String)
deriving DecidableEq

/-- The empty registry (`ToolRegistry.__init__`). -/
def emptyRegistry : ToolRegistry := ⟨[], []⟩

/-- `ToolRegistry.register_tool`: builds the definition, assigns
`self._tools[name] = tool_def` (silent overwrite if present), creates the
category bucket when missing, and appends the name to the bucket when not
already listed. -/
def registerTool (name : String) (function : Except String String)
    (description : String) (parameters_schema : List (String × String))
    (permission : ToolPermission) (category : String) (risk_level : Nat)
    (reg : ToolRegistry) : ToolRegistry :=
  let tool_def : ToolDefinition :=
    ⟨name, description, function, parameters_schema, permission, category, risk_level⟩
  let tools2 := dictInsert reg.tools name tool_def
  let cats1 :=
    if (dictGet reg.categories category).isSome then reg.categories
    else reg.categories ++ [(category, [])]
  let bucket := (dictGet cats1 category).getD []
  let cats2 :=
    if name ∈ bucket then cats1 else dictInsert cats1 category (bucket ++ [name])
  ⟨tools2, cats2⟩

/-- `ToolRegistry.has_tool`. -/
def hasTool (reg : ToolRegistry) (name : String) : Bool :=
  (dictGet reg.tools name).isSome

/-- `ToolRegistry.get_tool` (`dict.get`, returns `None` when missing). -/
def getTool (reg : ToolRegistry) (name : String) : Option ToolDefinition :=
  dictGet reg.tools name

/-- `ToolRegistry.get_tools_by_category` (`dict.get(category, [])`). -/
def getToolsByCategory (reg : ToolRegistry) (category : String) : List String :=
  (dictGet reg.categories category).getD []

/-- One recorded tool outcome, as built by `TTTAgent._execute_tool`:
`\x7b"success": True, "result": r\x7d` or `\x7b"success": False, "error": e\x7d`.
The `output` field holds the `result` payload when `success` is true and the
`error` string otherwise. -/
structure ToolResult where
  success : Bool
  output : String
deriving DecidableEq

/-- `AgentState` dataclass from `src/agent/core.py`.  The `messages`,
`memory_context`, `session_id` and `task_id` fields are carried by the
source but never read by any transition guard or by the operations the
claims are about, so they are not tracked here; every field that any guard
or node reads or writes is present. -/
structure AgentState where
  current_phase : ExecutionPhase := ExecutionPhase.IDLE
  plan : Option String := none
  selected_tools : List String := []
  tool_results : List (String × ToolResult) := []
  pending_approvals : List String := []
  iteration_count : Nat := 0
  error_message : Option String := none
  reflection : Option String := none
deriving DecidableEq

/-- The dataclass defaults of `AgentState` (a fresh `TTTAgent.state`). -/
def initialState : AgentState := {}

/-- Python truthiness of an `Optional[str]`: `None` and the empty string are
falsy. -/
def pyTruthy : Option String → Bool
  | none => false
  | some s => !(s == "")

/-- `TTTAgent._planning_node`.  Memory retrieval, prompt construction and
the LLM call are external effects; their combined outcome is the exogenous
`resp` argument: `.ok (plan, tools)` models a `generate_plan` return whose
`plan` key is `plan` and whose `tools` key is `tools`, and `.error e`
models a raised exception, which the node's `except` clause turns into the
`ERROR` phase with `error_message` set. -/
def planningNode (resp : Except String (Option String × List String))
    (st : AgentState) : AgentState :=
  match resp with
  | .ok (p, ts) =>
      { st with current_phase := ExecutionPhase.PLANNING,
                plan := p, selected_tools := ts }
  | .error e =>
      { st with current_phase := ExecutionPhase.ERROR,
                error_message := some ("Planning error: " ++ e) }

/-- `TTTAgent._tool_selection_node`: keep only the selected tool names the
registry knows. -/
def toolSelectionNode (reg : ToolRegistry) (st : AgentState) : AgentState :=
  { st with current_phase := ExecutionPhase.TOOL_SELECTION,
            selected_tools := st.selected_tools.filter (fun t => hasTool reg t) }

/-- The loop body of `TTTAgent._approval_check_node`: collect, in order, the
selected tools whose permission is `REQUIRE_CONFIRMATION`.  When a selected
name is unknown, `get_tool` returns `None` and the attribute access
`tool_def.permission` raises (`_approval_check_node` has no `try`). -/
def computePending (reg : ToolRegistry) : List String → Except String (List String)
  | [] => .ok []
  | t :: rest =>
      match getTool reg t with
      | none => .error "AttributeError: NoneType object has no attribute permission"
      | some td => do
          let ps ← computePending reg rest
          pure (if td.permission = ToolPermission.REQUIRE_CONFIRMATION then t :: ps else ps)

/-- `TTTAgent._approval_check_node`: recompute `pending_approvals` from
`selected_tools`. -/
def approvalCheckNode (reg : ToolRegistry) (st : AgentState) : Except String AgentState :=
  match computePending reg st.selected_tools with
  | .ok pending =>
      .ok { st with current_phase := ExecutionPhase.AWAITING_APPROVAL,
                    pending_approvals := pending }
  | .error e => .error e

/-- `TTTAgent._execute_tool`: invoke the capability, catching every
exception; also covers `tool_def` being `None` (the attribute access raises
inside the same `try`). -/
def executeTool : Option ToolDefinition → ToolResult
  | none => ⟨false, "AttributeError: NoneType object has no attribute function"⟩
  | some td =>
      match td.function with
      | .ok r => ⟨true, r⟩
      | .error e => ⟨false, e⟩

/-- The loop body of `TTTAgent._execution_node`: skip tools still in
`pending_approvals`, otherwise record the execution outcome in
`tool_results`. -/
def execStep (reg : ToolRegistry) (pending : List String)
    (m : List (String × ToolResult)) (t : String) : List (String × ToolResult) :=
  if t ∈ pending then m else dictInsert m t (executeTool (getTool reg t))

/-- `TTTAgent._execution_node`.  Nothing inside the node's `try` can raise
(`get_tool` is a `dict.get` and `_execute_tool` catches everything), so the
node is total and its `except` branch is unreachable. -/
def executionNode (reg : ToolRegistry) (st : AgentState) : AgentState :=
  { st with current_phase := ExecutionPhase.EXECUTING,
            tool_results :=
              st.selected_tools.foldl (execStep reg st.pending_approvals) st.tool_results }

/-- `TTTAgent._reflection_node`.  The reflection LLM call and the memory
write are external; `resp` is the `reflection` key of the
`reflect_on_results` return. -/
def reflectionNode (resp : Option String) (st : AgentState) : AgentState :=
  { st with current_phase := ExecutionPhase.REFLECTING,
            reflection := resp,
            iteration_count := st.iteration_count + 1 }

/-- `TTTAgent._error_handling_node` (the memory write is external). -/
def errorHandlingNode (st : AgentState) : AgentState :=
  { st with current_phase := ExecutionPhase.ERROR }

/-- Substring occurrence over the underlying character lists, used to model
Python's `in` operator on strings. -/
def subOccurs (needle : List Char) : List Char → Bool
  | [] => needle.isEmpty
  | c :: rest => needle.isPrefixOf (c :: rest) || subOccurs needle rest

/-- Python `needle in haystack` for strings. -/
def pyIn (needle haystack : String) : Bool :=
  subOccurs needle.data haystack.data

/-- `TTTAgent._should_continue_to_approval`. -/
def shouldContinueToApproval (reg : ToolRegistry) (st : AgentState) : String :=
  if st.selected_tools = [] then "end"
  else if st.selected_tools.any (fun t =>
      hasTool reg t &&
        match getTool reg t with
        | some td => td.permission = ToolPermission.REQUIRE_CONFIRMATION
        | none => false) then "approval"
  else "execute"

/-- `TTTAgent._approval_decision`.  Note that it can only ever return
`"approved"` or `"waiting"`; the `"rejected"` outcome mapped to the
`planning` node in `_build_workflow` is never produced. -/
def approvalDecision (st : AgentState) : String :=
  if st.pending_approvals = [] then "approved" else "waiting"

/-- `TTTAgent._execution_decision`. -/
def executionDecision (st : AgentState) : String :=
  if pyTruthy st.error_message then "error" else "continue"

/-- `TTTAgent._should_continue`: the iteration cap, then the completion
marker in the reflection text (Python truthiness: `None` and `""` both skip
the substring test). -/
def shouldContinue (maxIterations : Nat) (st : AgentState) : String :=
  if maxIterations ≤ st.iteration_count then "end"
  else if pyTruthy st.reflection &&
      pyIn "complete" ((st.reflection.getD "").toLower) then "end"
  else "continue"

/-- `TTTAgent.approve_tools`: drop the approved names from
`pending_approvals`. -/
def approveTools (approved : List String) (st : AgentState) : AgentState :=
  { st with pending_approvals := st.pending_approvals.filter (fun t => t ∉ approved) }

/-- `TTTAgent.reject_tools`: drop the rejected names from `selected_tools`
(and, notably, not from `pending_approvals`). -/
def rejectTools (rejected : List String) (st : AgentState) : AgentState :=
  { st with selected_tools := st.selected_tools.filter (fun t => t ∉ rejected) }

/-- The LangGraph nodes of `TTTAgent._build_workflow`, plus `done` for
`END`. -/
inductive Node
  | planning
  | tool_selection
  | approval_check
  | execution
  | reflection
  | error_handling
  | done
deriving DecidableEq

/-- One step of the compiled workflow of `TTTAgent._build_workflow`.  A
configuration `(n, st)` is the node about to run together with the state it
will receive; a step runs the node and follows the (conditional) edge
selected by the corresponding decision function.  The exogenous `resp`
arguments carry the outcome of the external LLM calls.  While the
`approval_check` self-loop is waiting, the externally callable approval API
(`approve_tools` / `reject_tools`) may mutate the state, modelled by the
`ext_approve` / `ext_reject` steps.  When `_approval_check_node` raises
(unknown tool), the workflow has no successor configuration. -/
inductive Step (reg : ToolRegistry) (maxIterations : Nat) :
    Node × AgentState → Node × AgentState → Prop
  | plan_to_selection (st : AgentState) (resp : Except String (Option String × List String)) :
      Step reg maxIterations (Node.planning, st) (Node.tool_selection, planningNode resp st)
  | selection_end (st : AgentState)
      (h : shouldContinueToApproval reg (toolSelectionNode reg st) = "end") :
      Step reg maxIterations (Node.tool_selection, st) (Node.done, toolSelectionNode reg st)
  | selection_approval (st : AgentState)
      (h : shouldContinueToApproval reg (toolSelectionNode reg st) = "approval") :
      Step reg maxIterations (Node.tool_selection, st)
        (Node.approval_check, toolSelectionNode reg st)
  | selection_execute (st : AgentState)
      (h : shouldContinueToApproval reg (toolSelectionNode reg st) = "execute") :
      Step reg maxIterations (Node.tool_selection, st) (Node.execution, toolSelectionNode reg st)
  | approval_approved (st st2 : AgentState)
      (hnode : approvalCheckNode reg st = .ok st2)
      (h : approvalDecision st2 = "approved") :
      Step reg maxIterations (Node.approval_check, st) (Node.execution, st2)
  | approval_rejected (st st2 : AgentState)
      (hnode : approvalCheckNode reg st = .ok st2)
      (h : approvalDecision st2 = "rejected") :
      Step reg maxIterations (Node.approval_check, st) (Node.planning, st2)
  | approval_waiting (st st2 : AgentState)
      (hnode : approvalCheckNode reg st = .ok st2)
      (h : approvalDecision st2 = "waiting") :
      Step reg maxIterations (Node.approval_check, st) (Node.approval_check, st2)
  | ext_approve (st : AgentState) (names : List String) :
      Step reg maxIterations (Node.approval_check, st) (Node.approval_check, approveTools names st)
  | ext_reject (st : AgentState) (names : List String) :
      Step reg maxIterations (Node.approval_check, st) (Node.approval_check, rejectTools names st)
  | execution_continue (st : AgentState)
      (h : executionDecision (executionNode reg st) = "continue") :
      Step reg maxIterations (Node.execution, st) (Node.reflection, executionNode reg st)
  | execution_error (st : AgentState)
      (h : executionDecision (executionNode reg st) = "error") :
      Step reg maxIterations (Node.execution, st) (Node.error_handling, executionNode reg st)
  | reflection_continue (st : AgentState) (resp : Option String)
      (h : shouldContinue maxIterations (reflectionNode resp st) = "continue") :
      Step reg maxIterations (Node.reflection, st) (Node.planning, reflectionNode resp st)
  | reflection_end (st : AgentState) (resp : Option String)
      (h : shouldContinue maxIterations (reflectionNode resp st) = "end") :
      Step reg maxIterations (Node.reflection, st) (Node.done, reflectionNode resp st)
  | error_done (st : AgentState) :
      Step reg maxIterations (Node.error_handling, st) (Node.done, errorHandlingNode st)

/-- Configurations reachable in one `process_message` run: the workflow
entry point is the `planning` node, applied to the dataclass-default state
(`iteration_count = 0`). -/
def Reachable (reg : ToolRegistry) (maxIterations : Nat) (c : Node × AgentState) : Prop :=
  Relation.ReflTransGen (Step reg maxIterations) (Node.planning, initialState) c

/-- One entry of the context list built by
`MemoryManager.retrieve_relevant_context`: the `type` tag
(`"conversation"`, `"task"` or `"interaction"`), the document text, and the
relevance `distance` (lower is more relevant).  The remaining
source-specific metadata keys (`timestamp`, `role`, `task_id`, `title`,
`status`, `tools_executed`) are copied verbatim from the query result and
play no role in ranking, so they are not tracked. -/
structure ContextItem where
  type : String
  content : String
  distance : ℚ
deriving DecidableEq

instance : IsTotal ContextItem (fun a b => a.distance ≤ b.distance) :=
  ⟨fun a b => le_total a.distance b.distance⟩

instance : IsTrans ContextItem (fun a b => a.distance ≤ b.distance) :=
  ⟨fun _ _ _ hab hbc => le_trans hab hbc⟩

/-- Python's `list.sort(key=lambda x: x["distance"])`: the stable ascending
sort by `distance`, as the (unique) stable-sort function, here realised by
Mathlib's insertion sort. -/
def sortByDistance (l : List ContextItem) : List ContextItem :=
  l.insertionSort (fun a b => a.distance ≤ b.distance)

/-- `MemoryManager.retrieve_relevant_context`.  The three ChromaDB queries
are external: each of `convQ`, `taskQ`, `interQ` is the outcome of the
corresponding `collection.query` call, as the `(document, distance)` rows it
returned or `.error` for a raised exception.  The source wraps all three
queries and the final ranking in one `try`, appends conversation rows, then
task rows (only when `task_id` is given), then interaction rows, sorts by
`distance`, truncates to `limit`, and on any exception returns `[]` from
the `except` clause. -/
def retrieveRelevantContext (limit : Nat) (taskId : Option String)
    (convQ taskQ interQ : Except String (List (String × ℚ))) : List ContextItem :=
  let attempt : Except String (List ContextItem) := do
    let conv ← convQ
    let convItems := conv.map (fun p => ContextItem.mk "conversation" p.1 p.2)
    let taskItems ← match taskId with
      | some _ => do
          let task ← taskQ
          pure (task.map (fun p => ContextItem.mk "task" p.1 p.2))
      | none => pure []
    let inter ← interQ
    let interItems := inter.map (fun p => ContextItem.mk "interaction" p.1 p.2)
    pure (convItems ++ taskItems ++ interItems)
  match attempt with
  | .ok context => (sortByDistance context).take limit
  | .error _ => []

/-- Index of the first occurrence of `needle` in `hay`, if any. -/
def findSub (needle : List Char) : List Char → Option Nat
  | [] => if needle.isEmpty then some 0 else none
  | c :: rest =>
      if needle.isPrefixOf (c :: rest) then some 0
      else (findSub needle rest).map (fun i => i + 1)

/-- Index of the last occurrence of `needle` in `hay`, if any. -/
def rfindSub (needle : List Char) : List Char → Option Nat
  | [] => if needle.isEmpty then some 0 else none
  | c :: rest =>
      match rfindSub needle rest with
      | some i => some (i + 1)
      | none => if needle.isPrefixOf (c :: rest) then some 0 else none

/-- Python `haystack.find(needle, start)`: first index at or after `start`,
or `-1`. -/
def pyFind (haystack needle : String) (start : Nat) : Int :=
  match findSub needle.data (haystack.data.drop start) with
  | some i => Int.ofNat (start + i)
  | none => -1

/-- Python `haystack.rfind(needle)`: last index, or `-1`. -/
def pyRfind (haystack needle : String) : Int :=
  match rfindSub needle.data haystack.data with
  | some i => Int.ofNat i
  | none => -1

/-- Python slicing `s[a:b]` for the index forms the source produces:
negative indices count from the end, then both bounds are clamped to
`[0, len(s)]` and an empty slice results when they cross. -/
def pySlice (s : String) (a b : Int) : String :=
  let n : Int := Int.ofNat s.data.length
  let norm : Int → Int := fun i => if i < 0 then i + n else i
  let a2 := max 0 (min n (norm a))
  let b2 := max 0 (min n (norm b))
  if a2 < b2 then ⟨(s.data.drop a2.toNat).take (b2 - a2).toNat⟩ else ""

/-- Python `s.strip()`. -/
def pyStrip (s : String) : String :=
  ⟨((s.data.dropWhile Char.isWhitespace).reverse.dropWhile Char.isWhitespace).reverse⟩

/-- The markdown-fence extraction at the head of `generate_plan`
(`gemini_client.py` lines 100-108): prefer the first block opened by
three backticks followed by `json` (up to the next fence), otherwise the
span between the first and the last bare fence, otherwise the raw text. -/
def extractFenced (text : String) : String :=
  if pyIn "```json" text then
    let jsonStart := pyFind text "```json" 0 + 7
    let jsonEnd := pyFind text "```" jsonStart.toNat
    pyStrip (pySlice text jsonStart jsonEnd)
  else if pyIn "```" text then
    let jsonStart := pyFind text "```" 0 + 3
    let jsonEnd := pyRfind text "```"
    pyStrip (pySlice text jsonStart jsonEnd)
  else text

/-- JSON values, the possible results of `json.loads`. -/
inductive Json
  | null
  | bool (b : Bool)
  | num (q : ℚ)
  | str (s : String)
  | arr (xs : List Json)
  | obj (kvs : List (String × Json))

/-- Python `key in value` for a parsed JSON value: dict key membership,
list membership (only a JSON string can equal a Python string), substring
test on strings; any other operand raises `TypeError`. -/
def pyInJson (key : String) : Json → Except String Bool
  | .obj kvs => .ok (dictGet kvs key).isSome
  | .arr xs => .ok (xs.any (fun x => match x with | .str s => s = key | _ => false))
  | .str s => .ok (pyIn key s)
  | _ => .error "TypeError: argument is not iterable"

/-- Python `value[key] = v` for a parsed JSON value: item assignment is
only supported by dicts; everything else raises `TypeError`. -/
def pySetItemJson (j : Json) (key : String) (v : Json) : Except String Json :=
  match j with
  | .obj kvs => .ok (.obj (dictInsert kvs key v))
  | _ => .error "TypeError: object does not support item assignment"

/-- The body of the required-field loop in `generate_plan`: fill `field`
with the placeholder string when it is missing. -/
def fillField (field : String) (j : Json) : Except String Json := do
  let present ← pyInJson field j
  if present then pure j else pySetItemJson j field (.str ("Generated " ++ field))

/-- The `required_fields` validation loop of `generate_plan`, unrolled over
its literal field list `["plan", "tools", "reasoning"]`. -/
def fillRequired (j : Json) : Except String Json := do
  let j1 ← fillField "plan" j
  let j2 ← fillField "tools" j1
  fillField "reasoning" j2

/-- `GeminiClient.generate_plan`, from the point where `_make_request` has
returned `responseText` (`json.loads` is external; `parse` stands for it
and must agree with it on the inputs at which it is instantiated).  The
inner `except` catches only `JSONDecodeError`, producing the fallback
structure from the extracted text; any other exception (notably the
`TypeError` the validation loop raises on a non-dict, non-container parse)
reaches the outer `except`, which produces the error structure.  The
function is total: no exception escapes. -/
def generatePlan (parse : String → Except String Json) (responseText : String) : Json :=
  match parse (extractFenced responseText) with
  | .error _ =>
      Json.obj [("plan", .str (extractFenced responseText)), ("tools", .arr []),
        ("reasoning", .str "Fallback parsing - could not extract JSON"),
        ("estimated_complexity", .str "unknown")]
  | .ok planData =>
      match fillRequired planData with
      | .ok filled => filled
      | .error e =>
          Json.obj [("plan", .str ("Error generating plan: " ++ e)), ("tools", .arr []),
            ("reasoning", .str "Error occurred during planning"), ("error", .str e)]

/-- Field lookup on a JSON object result. -/
def jsonGet (j : Json) (key : String) : Option Json :=
  match j with
  | .obj kvs => dictGet kvs key
  | _ => none

theorem getTool_registerTool_self (reg : ToolRegistry) (name : String)
    (f : Except String String) (d : String) (s : List (String × String))
    (p : ToolPermission) (c : String) (r : Nat) :
    getTool (registerTool name f d s p c r reg) name = some ⟨name, d, f, s, p, c, r⟩ := by
  simp [registerTool, getTool, dictGet_dictInsert_self]

theorem mem_category_after_register (reg : ToolRegistry) (name : String)
    (f : Except String String) (d : String) (s : List (String × String))
    (p : ToolPermission) (c : String) (r : Nat) :
    name ∈ getToolsByCategory (registerTool name f d s p c r reg) c := by
  unfold registerTool getToolsByCategory
  simp only []
  set cats1 := if (dictGet reg.categories c).isSome then reg.categories
    else reg.categories ++ [(c, [])] with hcats1
  set bucket := (dictGet cats1 c).getD [] with hbucket
  by_cases hmem : name ∈ bucket
  · simp [hmem, hbucket]
  · simp [hmem, dictGet_dictInsert_self]

theorem getToolsByCategory_register_other (reg : ToolRegistry) (name c c2 : String)
    (f : Except String String) (d : String) (s : List (String × String))
    (p : ToolPermission) (r : Nat) (h : c ≠ c2) :
    getToolsByCategory (registerTool name f d s p c2 r reg) c = getToolsByCategory reg c := by
  unfold registerTool getToolsByCategory
  simp only []
  set cats1 := if (dictGet reg.categories c2).isSome then reg.categories
    else reg.categories ++ [(c2, [])] with hcats1
  have h1 : dictGet cats1 c = dictGet reg.categories c := by
    rw [hcats1]
    split
    · rfl
    · exact dictGet_append_ne reg.categories c2 c [] h
  split
  · rw [h1]
  · rw [dictGet_dictInsert_ne cats1 c2 c _ h, h1]

theorem execFold_pending_unchanged (reg : ToolRegistry) (pending : List String)
    (l : List String) (acc : List (String × ToolResult)) (t : String)
    (ht : t ∈ pending) :
    dictGet (l.foldl (execStep reg pending) acc) t = dictGet acc t := by
  induction l generalizing acc with
  | nil => rfl
  | cons hd tl ih =>
      rw [List.foldl_cons, ih]
      unfold execStep
      split
      · rfl
      · next hskip =>
          exact dictGet_dictInsert_ne acc hd t _ (fun he => hskip (he ▸ ht))

theorem execFold_not_selected (reg : ToolRegistry) (pending : List String)
    (l : List String) (acc : List (String × ToolResult)) (t : String)
    (ht : t ∉ l) :
    dictGet (l.foldl (execStep reg pending) acc) t = dictGet acc t := by
  induction l generalizing acc with
  | nil => rfl
  | cons hd tl ih =>
      rw [List.foldl_cons, ih _ (fun hm => ht (List.mem_cons_of_mem hd hm))]
      unfold execStep
      split
      · rfl
      · exact dictGet_dictInsert_ne acc hd t _
          (fun he => ht (he ▸ List.mem_cons_self hd tl))

theorem execFold_selected (reg : ToolRegistry) (pending : List String)
    (l : List String) (acc : List (String × ToolResult)) (t : String)
    (hmem : t ∈ l) (hnp : t ∉ pending) :
    dictGet (l.foldl (execStep reg pending) acc) t =
      some (executeTool (getTool reg t)) := by
  induction l generalizing acc with
  | nil => cases hmem
  | cons hd tl ih =>
      rw [List.foldl_cons]
      by_cases htl : t ∈ tl
      · exact ih _ htl
      · have hhd : t = hd := by
          rcases List.mem_cons.mp hmem with h | h
          · exact h
          · exact absurd h htl
        subst hhd
        rw [execFold_not_selected reg pending tl _ t htl]
        unfold execStep
        split
        · next hp => exact absurd hp hnp
        · exact dictGet_dictInsert_self acc t _

theorem computePending_subset (reg : ToolRegistry) (l : List String)
    (ps : List String) (h : computePending reg l = .ok ps) : ps ⊆ l := by
  induction l generalizing ps with
  | nil =>
      unfold computePending at h
      cases h
      exact List.nil_subset _
  | cons hd tl ih =>
      unfold computePending at h
      cases hget : getTool reg hd with
      | none => rw [hget] at h; cases h
      | some td =>
          rw [hget] at h
          cases hrec : computePending reg tl with
          | error e =>
              rw [hrec] at h
              cases h
          | ok ps2 =>
              rw [hrec] at h
              simp only [Except.bind, pure, Except.pure] at h
              have hsub := ih ps2 hrec
              split at h <;> cases h
              · exact List.cons_subset_cons hd hsub
              · exact fun x hx => List.mem_cons_of_mem hd (hsub hx)

theorem approvalCheckNode_ok (reg : ToolRegistry) (st st2 : AgentState)
    (h : approvalCheckNode reg st = .ok st2) :
    st2.selected_tools = st.selected_tools ∧
    st2.iteration_count = st.iteration_count ∧
    st2.pending_approvals ⊆ st.selected_tools := by
  unfold approvalCheckNode at h
  cases hcp : computePending reg st.selected_tools with
  | error e => rw [hcp] at h; cases h
  | ok pending =>
      rw [hcp] at h
      cases h
      exact ⟨rfl, rfl, computePending_subset reg _ pending hcp⟩

/-- One required-field step of `generate_plan`, at the level of the key-value
list: keep the object when the key is present, otherwise append the
placeholder string. -/
def fillStep (kvs : List (String × Json)) (f : String) : List (String × Json) :=
  if (dictGet kvs f).isSome then kvs else dictInsert kvs f (.str ("Generated " ++ f))

theorem ok_bind {α β : Type} (a : α) (f : α → Except String β) :
    (Except.ok a : Except String α) >>= f = f a := rfl

theorem fillField_obj (f : String) (kvs : List (String × Json)) :
    fillField f (.obj kvs) = .ok (.obj (fillStep kvs f)) := by
  cases hd : dictGet kvs f with
  | none =>
      simp [fillField, pyInJson, hd, fillStep, ok_bind, pySetItemJson, pure, Except.pure]
  | some v =>
      simp [fillField, pyInJson, hd, fillStep, ok_bind, pure, Except.pure]

theorem fillRequired_obj (kvs : List (String × Json)) :
    fillRequired (.obj kvs) =
      .ok (.obj (fillStep (fillStep (fillStep kvs "plan") "tools") "reasoning")) := by
  unfold fillRequired
  rw [fillField_obj, ok_bind, fillField_obj, ok_bind, fillField_obj]

theorem dictGet_fillStep_self (kvs : List (String × Json)) (f : String) :
    dictGet (fillStep kvs f) f = some ((dictGet kvs f).getD (.str ("Generated " ++ f))) := by
  unfold fillStep
  cases h : dictGet kvs f with
  | none => simp [h, dictGet_dictInsert_self]
  | some v => simp [h]

theorem dictGet_fillStep_ne (kvs : List (String × Json)) (f g : String) (h : g ≠ f) :
    dictGet (fillStep kvs f) g = dictGet kvs g := by
  unfold fillStep
  split
  · rfl
  · exact dictGet_dictInsert_ne kvs f g _ h

/-- The iteration-count invariant maintained by the workflow: strictly below
the cap at every live node, at most the cap once the run has reached `END`. -/
def iterInvariant (maxIterations : Nat) : Node × AgentState → Prop
  | (Node.done, st) => st.iteration_count ≤ maxIterations
  | (_, st) => st.iteration_count < maxIterations

theorem step_preserves_iterInvariant (reg : ToolRegistry) (maxIterations : Nat)
    (c c2 : Node × AgentState) (hstep : Step reg maxIterations c c2)
    (hinv : iterInvariant maxIterations c) : iterInvariant maxIterations c2 := by
  cases hstep with
  | plan_to_selection st resp =>
      cases resp with
      | ok pr => exact hinv
      | error e => exact hinv
  | selection_end st h => exact Nat.le_of_lt hinv
  | selection_approval st h => exact hinv
  | selection_execute st h => exact hinv
  | approval_approved st st2 hnode h =>
      have := (approvalCheckNode_ok reg st st2 hnode).2.1
      simpa [iterInvariant, this] using hinv
  | approval_rejected st st2 hnode h =>
      have := (approvalCheckNode_ok reg st st2 hnode).2.1
      simpa [iterInvariant, this] using hinv
  | approval_waiting st st2 hnode h =>
      have := (approvalCheckNode_ok reg st st2 hnode).2.1
      simpa [iterInvariant, this] using hinv
  | ext_approve st names => exact hinv
  | ext_reject st names => exact hinv
  | execution_continue st h => exact hinv
  | execution_error st h => exact hinv
  | reflection_continue st resp h =>
      unfold shouldContinue at h
      by_cases hle : maxIterations ≤ (reflectionNode resp st).iteration_count
      · simp [hle] at h
      · exact Nat.lt_of_not_le hle
  | reflection_end st resp h =>
      exact Nat.succ_le_of_lt hinv
  | error_done st => exact Nat.le_of_lt hinv

theorem reachable_iterInvariant (reg : ToolRegistry) (maxIterations : Nat)
    (hpos : 0 < maxIterations) (c : Node × AgentState)
    (h : Reachable reg maxIterations c) : iterInvariant maxIterations c := by
  induction h with
  | refl => exact hpos
  | tail _ hstep ih => exact step_preserves_iterInvariant reg maxIterations _ _ hstep ih

/-- C1: the execution phase invokes exactly the selected tools that are not
pending approval.  For every state: (i) a tool in `pending_approvals` keeps
whatever `tool_results` entry it had before the cycle — in particular it
never receives one; (ii) every selected, non-pending tool has its capability
invoked and its outcome recorded; (iii) a tool outside `selected_tools` is
untouched, so nothing else is invoked or recorded. -/
theorem execution_invokes_exactly_nonpending (reg : ToolRegistry) (st : AgentState) :
    (∀ t ∈ st.pending_approvals,
      dictGet (executionNode reg st).tool_results t = dictGet st.tool_results t) ∧
    (∀ t ∈ st.selected_tools, t ∉ st.pending_approvals →
      dictGet (executionNode reg st).tool_results t = some (executeTool (getTool reg t))) ∧
    (∀ t, t ∉ st.selected_tools →
      dictGet (executionNode reg st).tool_results t = dictGet st.tool_results t) :=
  ⟨fun t ht => execFold_pending_unchanged reg st.pending_approvals st.selected_tools
      st.tool_results t ht,
   fun t hmem hnp => execFold_selected reg st.pending_approvals st.selected_tools
      st.tool_results t hmem hnp,
   fun t hns => execFold_not_selected reg st.pending_approvals st.selected_tools
      st.tool_results t hns⟩

/-- Registry used by the concrete executions below: `alpha` returns
normally, `beta` raises, `gamma` returns normally; all auto-approved except
`delta`, which requires confirmation. -/
def regW : ToolRegistry :=
  registerTool "delta" (.ok "rd") "tool delta" [] .REQUIRE_CONFIRMATION "general" 3
    (registerTool "gamma" (.ok "rc") "tool gamma" [] .AUTO_APPROVE "general" 1
      (registerTool "beta" (.error "boom") "tool beta" [] .AUTO_APPROVE "general" 1
        (registerTool "alpha" (.ok "ra") "tool alpha" [] .AUTO_APPROVE "general" 1
          emptyRegistry)))

/-- Concrete state: `delta` is pending, the other three are selected and
approved. -/
def stW : AgentState :=
  { current_phase := ExecutionPhase.AWAITING_APPROVAL, plan := some "p",
    selected_tools := ["alpha", "beta", "gamma", "delta"],
    pending_approvals := ["delta"] }

/-- Witness for C1 at `regW` / `stW`: the pending `delta` gets no entry, the
approved `alpha` is invoked and recorded. -/
theorem execution_invokes_exactly_nonpending_witness :
    dictGet (executionNode regW stW).tool_results "delta" = dictGet stW.tool_results "delta" ∧
    dictGet (executionNode regW stW).tool_results "alpha" =
      some (executeTool (getTool regW "alpha")) :=
  ⟨(execution_invokes_exactly_nonpending regW stW).1 "delta" (by decide),
   (execution_invokes_exactly_nonpending regW stW).2.1 "alpha" (by decide) (by decide)⟩

/-- C2: with a positive cap, `iteration_count` never exceeds
`maxIterations` in any reachable configuration of a run, and every step the
workflow takes out of the reflection node whose resulting count has reached
the cap goes to `END` (the run completes), never back to planning.  The
guard itself (`_should_continue`) is consulted exactly once per such step,
as the single conditional edge out of `reflection`. -/
theorem iteration_bound (reg : ToolRegistry) (maxIterations : Nat)
    (hpos : 0 < maxIterations) :
    (∀ n st, Reachable reg maxIterations (n, st) → st.iteration_count ≤ maxIterations) ∧
    (∀ st n2 st2, Step reg maxIterations (Node.reflection, st) (n2, st2) →
      maxIterations ≤ st2.iteration_count → n2 = Node.done) := by
  constructor
  · intro n st h
    have hinv := reachable_iterInvariant reg maxIterations hpos (n, st) h
    cases n with
    | done => exact hinv
    | planning => exact Nat.le_of_lt hinv
    | tool_selection => exact Nat.le_of_lt hinv
    | approval_check => exact Nat.le_of_lt hinv
    | execution => exact Nat.le_of_lt hinv
    | reflection => exact Nat.le_of_lt hinv
    | error_handling => exact Nat.le_of_lt hinv
  · intro st n2 st2 hstep hge
    cases hstep with
    | reflection_continue st resp h =>
        unfold shouldContinue at h
        simp [hge] at h
    | reflection_end st resp h => rfl

/-- Witness for C2 with cap 1 and the empty registry: the initial
configuration is reachable and satisfies the bound. -/
theorem iteration_bound_witness : initialState.iteration_count ≤ 1 :=
  (iteration_bound emptyRegistry 1 (by decide)).1 Node.planning initialState
    Relation.ReflTransGen.refl

/-- C9: a raising tool capability cannot abort the batch or send the run to
`Error`.  The execution node never touches `error_message`; when no error
was pending the post-execution decision is `"continue"` (to reflection);
a capability that raises is recorded as a failed `ToolResult` carrying the
exception text; and every selected approved tool gets its outcome recorded
regardless of the others. -/
theorem tool_failure_isolated (reg : ToolRegistry) (st : AgentState) :
    (executionNode reg st).error_message = st.error_message ∧
    (pyTruthy st.error_message = false →
      executionDecision (executionNode reg st) = "continue") ∧
    (∀ (td : ToolDefinition) (e : String), td.function = .error e →
      executeTool (some td) = ⟨false, e⟩) ∧
    (∀ t ∈ st.selected_tools, t ∉ st.pending_approvals →
      dictGet (executionNode reg st).tool_results t = some (executeTool (getTool reg t))) := by
  refine ⟨rfl, ?_, ?_, ?_⟩
  · intro h
    unfold executionDecision executionNode
    simp [h]
  · intro td e h
    simp [executeTool, h]
  · intro t hmem hnp
    exact execFold_selected reg st.pending_approvals st.selected_tools
      st.tool_results t hmem hnp

/-- State for the C9 witness: three approved tools, the second of which
raises. -/
def stW9 : AgentState :=
  { current_phase := ExecutionPhase.EXECUTING, plan := some "p",
    selected_tools := ["alpha", "beta", "gamma"], pending_approvals := [] }

/-- Witness for C9 at `regW` / `stW9`: with three approved tools where the
second raises, results are recorded for tools 1 and 3 (and the failure for
tool 2), and the run proceeds to reflection. -/
theorem tool_failure_isolated_witness :
    dictGet (executionNode regW stW9).tool_results "alpha" = some ⟨true, "ra"⟩ ∧
    dictGet (executionNode regW stW9).tool_results "beta" = some ⟨false, "boom"⟩ ∧
    dictGet (executionNode regW stW9).tool_results "gamma" = some ⟨true, "rc"⟩ ∧
    executionDecision (executionNode regW stW9) = "continue" := by
  have h := tool_failure_isolated regW stW9
  refine ⟨?_, ?_, ?_, h.2.1 (by decide)⟩
  · rw [h.2.2.2 "alpha" (by decide) (by decide)]; decide
  · rw [h.2.2.2 "beta" (by decide) (by decide)]; decide
  · rw [h.2.2.2 "gamma" (by decide) (by decide)]; decide

/-- Registry holding one tool `a` that requires confirmation. -/
def regRC : ToolRegistry :=
  registerTool "a" (.ok "ra") "tool a" [] .REQUIRE_CONFIRMATION "general" 1 emptyRegistry

/-- The state after the tool-selection node on a plan selecting `a`. -/
def st2C4 : AgentState :=
  { current_phase := ExecutionPhase.TOOL_SELECTION, plan := some "p",
    selected_tools := ["a"] }

/-- The `AwaitingApproval` state with `a` both selected and pending, as the
approval-check node produces it from `st2C4`. -/
def stC3 : AgentState :=
  { current_phase := ExecutionPhase.AWAITING_APPROVAL, plan := some "p",
    selected_tools := ["a"], pending_approvals := ["a"] }

/-- What the approval-check node recomputes after the rejection of `a`. -/
def stC3after : AgentState :=
  { current_phase := ExecutionPhase.AWAITING_APPROVAL, plan := some "p",
    selected_tools := [], pending_approvals := [] }

/-- C3, evaluated at the failing input: in `AwaitingApproval` with `a` the
only pending tool, `reject_tools(["a"])` leaves `pending_approvals`
non-empty, so the approval guard yields `"waiting"` — not `"rejected"`, an
outcome `_approval_decision` can never produce — and when the self-loop
re-runs the approval-check node, the recomputed `pending_approvals` is
empty and the guard yields `"approved"`: the run proceeds to execution, not
back to planning.  `iteration_count` is indeed unchanged by the
rejection. -/
theorem reject_all_pending_does_not_replan :
    approvalDecision (rejectTools ["a"] stC3) = "waiting" ∧
    (rejectTools ["a"] stC3).iteration_count = stC3.iteration_count ∧
    approvalCheckNode regRC (rejectTools ["a"] stC3) = .ok stC3after ∧
    approvalDecision stC3after = "approved" ∧
    (∀ st : AgentState, (approvalDecision st == "rejected") = false) := by
  refine ⟨by decide, rfl, by decide, by decide, ?_⟩
  intro st
  unfold approvalDecision
  split <;> rfl

/-- The reachable state violating `pendingApprovals ⊆ selectedTools`:
after rejecting the pending `a`, it is still pending but no longer
selected. -/
def stBadC4 : AgentState :=
  { current_phase := ExecutionPhase.AWAITING_APPROVAL, plan := some "p",
    selected_tools := [], pending_approvals := ["a"] }

/-- Counterexample to C4: a run can reach a state in which a tool is in
`pending_approvals` but not in `selected_tools`, because `reject_tools`
removes rejected names from `selected_tools` only. -/
theorem pending_subset_violated_cex :
    Reachable regRC 10 (Node.approval_check, stBadC4) ∧
    "a" ∈ stBadC4.pending_approvals ∧ "a" ∉ stBadC4.selected_tools := by
  refine ⟨?_, by decide, by decide⟩
  have h1 : Step regRC 10 (Node.planning, initialState)
      (Node.tool_selection, planningNode (.ok (some "p", ["a"])) initialState) :=
    Step.plan_to_selection initialState (.ok (some "p", ["a"]))
  have hplan : planningNode (.ok (some "p", ["a"])) initialState =
      { current_phase := ExecutionPhase.PLANNING, plan := some "p",
        selected_tools := ["a"] } := by decide
  have hsel : toolSelectionNode regRC (planningNode (.ok (some "p", ["a"])) initialState) =
      st2C4 := by decide
  have h2 : Step regRC 10
      (Node.tool_selection, planningNode (.ok (some "p", ["a"])) initialState)
      (Node.approval_check, st2C4) := by
    rw [← hsel]
    exact Step.selection_approval _ (by decide)
  have h3 : Step regRC 10 (Node.approval_check, st2C4) (Node.approval_check, stC3) :=
    Step.approval_waiting _ _ (by decide) (by decide)
  have h4 : Step regRC 10 (Node.approval_check, stC3) (Node.approval_check, stBadC4) := by
    have hrej : rejectTools ["a"] stC3 = stBadC4 := by decide
    rw [← hrej]
    exact Step.ext_reject stC3 ["a"]
  exact Relation.ReflTransGen.tail
    (Relation.ReflTransGen.tail
      (Relation.ReflTransGen.tail
        (Relation.ReflTransGen.tail Relation.ReflTransGen.refl h1) h2) h3) h4

/-- C4 (amended): `pendingApprovals ⊆ selectedTools` is established by the
approval-check node and preserved by `approve_tools`; it is not preserved
by `reject_tools` (see the counterexample), which removes rejected names
from `selected_tools` only. -/
theorem pending_subset_after_check_and_approve (reg : ToolRegistry)
    (st st2 : AgentState) (names : List String) :
    (approvalCheckNode reg st = .ok st2 →
      st2.pending_approvals ⊆ st2.selected_tools) ∧
    (st.pending_approvals ⊆ st.selected_tools →
      (approveTools names st).pending_approvals ⊆ (approveTools names st).selected_tools) := by
  constructor
  · intro h
    have hok := approvalCheckNode_ok reg st st2 h
    rw [hok.1]
    exact hok.2.2
  · intro h t ht
    exact h (List.mem_of_mem_filter ht)

/-- Witness for the amended C4 at the concrete approval scenario. -/
theorem pending_subset_after_check_and_approve_witness :
    stC3.pending_approvals ⊆ stC3.selected_tools ∧
    (approveTools ["a"] stC3).pending_approvals ⊆ (approveTools ["a"] stC3).selected_tools :=
  ⟨(pending_subset_after_check_and_approve regRC st2C4 stC3 ["a"]).1 (by decide),
   (pending_subset_after_check_and_approve regRC stC3 stC3after ["a"]).2
     ((pending_subset_after_check_and_approve regRC st2C4 stC3 ["a"]).1 (by decide))⟩

/-- Counterexample to C5: the interaction query raises while the
conversation query succeeded with one item, and the aggregate call returns
`[]` — the conversation item is discarded, not returned; without the
failure the same call would have returned it. -/
theorem source_error_discards_other_sources_cex :
    retrieveRelevantContext 5 none (.ok [("hello", mkRat 1 10)]) (.ok []) (.error "boom") = [] ∧
    retrieveRelevantContext 5 none (.ok [("hello", mkRat 1 10)]) (.ok []) (.ok []) =
      [⟨"conversation", "hello", mkRat 1 10⟩] := by
  exact ⟨by decide, by decide⟩

/-- C5 (amended): the aggregate call itself never raises, but a raising
source empties the whole result: whichever of the three queries raises
(task only when a `task_id` was passed), `retrieve_relevant_context`
returns `[]`, discarding the items the other sources produced. -/
theorem source_error_empties_aggregate (limit : Nat) (tid : Option String)
    (tid2 e : String) (taskQ interQ : Except String (List (String × ℚ)))
    (cl tl : List (String × ℚ)) :
    retrieveRelevantContext limit tid (.error e) taskQ interQ = [] ∧
    retrieveRelevantContext limit (some tid2) (.ok cl) (.error e) interQ = [] ∧
    retrieveRelevantContext limit tid (.ok cl) (.ok tl) (.error e) = [] := by
  refine ⟨rfl, rfl, ?_⟩
  cases tid with
  | none => rfl
  | some t => rfl

/-- C6 (amended): `register_tool` never fails: registration with any name,
already present or not, stores the freshly built definition under that name
(silent overwrite; there is no `DuplicateTool` error and no replace
flag). -/
theorem register_existing_name_overwrites (reg : ToolRegistry) (name : String)
    (f : Except String String) (d : String) (s : List (String × String))
    (p : ToolPermission) (c : String) (r : Nat) :
    getTool (registerTool name f d s p c r reg) name = some ⟨name, d, f, s, p, c, r⟩ :=
  getTool_registerTool_self reg name f d s p c r

/-- Counterexample to C6: registering `t` twice succeeds both times and the
second plain `register_tool` call silently replaces the stored definition
(no `DuplicateTool` failure). -/
theorem register_duplicate_silently_overwrites_cex :
    getTool (registerTool "t" (.ok "A") "first" [] .AUTO_APPROVE "c1" 1 emptyRegistry) "t" =
      some ⟨"t", "first", .ok "A", [], .AUTO_APPROVE, "c1", 1⟩ ∧
    getTool (registerTool "t" (.ok "B") "second" [] .BLOCKED "c2" 2
        (registerTool "t" (.ok "A") "first" [] .AUTO_APPROVE "c1" 1 emptyRegistry)) "t" =
      some ⟨"t", "second", .ok "B", [], .BLOCKED, "c2", 2⟩ := by
  exact ⟨by decide, by decide⟩

/-- C10: registering an existing name under a different category updates the
stored definition (whose category becomes `c2`) but leaves the old
category-index entry in place: `get_tools_by_category c1` still lists the
name, disagreeing with the stored definition's category. -/
theorem category_index_keeps_stale_entry (reg : ToolRegistry) (name c1 c2 : String)
    (f1 f2 : Except String String) (d1 d2 : String) (s1 s2 : List (String × String))
    (p1 p2 : ToolPermission) (r1 r2 : Nat) (h : c1 ≠ c2) :
    name ∈ getToolsByCategory
      (registerTool name f2 d2 s2 p2 c2 r2 (registerTool name f1 d1 s1 p1 c1 r1 reg)) c1 ∧
    (getTool (registerTool name f2 d2 s2 p2 c2 r2 (registerTool name f1 d1 s1 p1 c1 r1 reg))
        name).map ToolDefinition.category = some c2 := by
  constructor
  · rw [getToolsByCategory_register_other _ name c1 c2 f2 d2 s2 p2 r2 h]
    exact mem_category_after_register reg name f1 d1 s1 p1 c1 r1
  · rw [getTool_registerTool_self]
    rfl

/-- Witness for C10 at concrete categories `c1 ≠ c2`. -/
theorem category_index_keeps_stale_entry_witness :
    "t" ∈ getToolsByCategory
      (registerTool "t" (.ok "B") "second" [] .BLOCKED "c2" 2
        (registerTool "t" (.ok "A") "first" [] .AUTO_APPROVE "c1" 1 emptyRegistry)) "c1" ∧
    (getTool (registerTool "t" (.ok "B") "second" [] .BLOCKED "c2" 2
        (registerTool "t" (.ok "A") "first" [] .AUTO_APPROVE "c1" 1 emptyRegistry))
      "t").map ToolDefinition.category = some "c2" :=
  category_index_keeps_stale_entry emptyRegistry "t" "c1" "c2" (.ok "A") (.ok "B")
    "first" "second" [] [] .AUTO_APPROVE .BLOCKED 1 2 (by decide)

/-- Counterexample to C7: at equal distance a task item is ranked before an
interaction item, because the source concatenates conversation, then task,
then interaction rows and Python's sort is stable — the claimed tie order
conversation > interaction > task does not hold. -/
theorem context_tie_order_cex :
    retrieveRelevantContext 5 (some "T") (.ok []) (.ok [("t", mkRat 1 2)])
        (.ok [("i", mkRat 1 2)]) =
      [⟨"task", "t", mkRat 1 2⟩, ⟨"interaction", "i", mkRat 1 2⟩] ∧
    (retrieveRelevantContext 5 (some "T") (.ok []) (.ok [("t", mkRat 1 2)])
        (.ok [("i", mkRat 1 2)])).map ContextItem.type = ["task", "interaction"] := by
  exact ⟨by decide, by decide⟩

/-- C7 (amended): the aggregate is the concatenation of the sources' items
sorted ascending by `distance` — ties broken by the concatenation order
conversation, then task, then interaction, then original retrieval order
(Python's sort is stable) — truncated to `limit`.  In general the output is
ascending in `distance` and no longer than `limit`; on the spec's example
(distances 9/10, 1/10, 1/2 from the three sources, `limit = 2`) exactly the
two lowest-distance items are returned in ascending order, and at equal
distances the order is conversation, task, interaction. -/
theorem context_ranking (limit : Nat) (tid : Option String)
    (convQ taskQ interQ : Except String (List (String × ℚ))) :
    List.Sorted (fun a b : ContextItem => a.distance ≤ b.distance)
      (retrieveRelevantContext limit tid convQ taskQ interQ) ∧
    (retrieveRelevantContext limit tid convQ taskQ interQ).length ≤ limit ∧
    retrieveRelevantContext 2 (some "T") (.ok [("c", mkRat 9 10)])
        (.ok [("t", mkRat 1 10)]) (.ok [("i", mkRat 1 2)]) =
      [⟨"task", "t", mkRat 1 10⟩, ⟨"interaction", "i", mkRat 1 2⟩] ∧
    retrieveRelevantContext 5 (some "T") (.ok [("c", mkRat 1 2)])
        (.ok [("t", mkRat 1 2)]) (.ok [("i", mkRat 1 2)]) =
      [⟨"conversation", "c", mkRat 1 2⟩, ⟨"task", "t", mkRat 1 2⟩,
        ⟨"interaction", "i", mkRat 1 2⟩] := by
  have key : ∀ res : Except String (List ContextItem),
      List.Sorted (fun a b : ContextItem => a.distance ≤ b.distance)
        (match res with
          | .ok c => (sortByDistance c).take limit
          | .error _ => []) ∧
      (match res with
        | .ok c => (sortByDistance c).take limit
        | .error _ => []).length ≤ limit := by
    intro res
    cases res with
    | error e => exact ⟨List.sorted_nil, Nat.zero_le _⟩
    | ok c =>
        constructor
        · exact List.Pairwise.sublist (List.take_sublist limit _)
            (List.sorted_insertionSort _ c)
        · rw [List.length_take]
          exact min_le_left _ _
  refine ⟨(key _).1, (key _).2, by decide, by decide⟩

/-- A raw model response carrying a JSON object that lacks the `tools`
field. -/
def responseC8 : String := "\x7b\"plan\": \"p\", \"reasoning\": \"r\"\x7d"

/-- What `json.loads` does at the inputs `generate_plan` reaches from
`responseC8`: the object for that exact text (no fences, so extraction
leaves it unchanged), a parse failure elsewhere. -/
def parseC8 : String → Except String Json := fun s =>
  if s = responseC8 then .ok (.obj [("plan", .str "p"), ("reasoning", .str "r")])
  else .error "Expecting value: line 1 column 1"

/-- Counterexample to C8: when `tools` is absent from a successfully parsed
plan, `generate_plan` fills it with the string `"Generated tools"` — not a
sequence of tool names. -/
theorem generate_plan_fills_tools_with_string_cex :
    jsonGet (generatePlan parseC8 responseC8) "tools" = some (Json.str "Generated tools") ∧
    jsonGet (generatePlan parseC8 responseC8) "plan" = some (Json.str "p") :=
  ⟨rfl, rfl⟩

/-- C8 (amended): `generate_plan` is total over raw responses.  When the
extracted text fails to parse it returns the fallback structure, whose
`tools` is the empty list and whose `reasoning` marks the fallback; when the
text parses to an object, each of `plan`, `tools`, `reasoning` is the parsed
value if present and otherwise the placeholder string `Generated <field>`
(so a missing `tools` becomes a string, not a list of names). -/
theorem generate_plan_degrades (parse : String → Except String Json) (resp : String) :
    (∀ e, parse (extractFenced resp) = .error e →
      generatePlan parse resp =
        Json.obj [("plan", .str (extractFenced resp)), ("tools", .arr []),
          ("reasoning", .str "Fallback parsing - could not extract JSON"),
          ("estimated_complexity", .str "unknown")]) ∧
    (∀ kvs, parse (extractFenced resp) = .ok (.obj kvs) →
      jsonGet (generatePlan parse resp) "plan" =
        some ((dictGet kvs "plan").getD (.str "Generated plan")) ∧
      jsonGet (generatePlan parse resp) "tools" =
        some ((dictGet kvs "tools").getD (.str "Generated tools")) ∧
      jsonGet (generatePlan parse resp) "reasoning" =
        some ((dictGet kvs "reasoning").getD (.str "Generated reasoning"))) := by
  constructor
  · intro e he
    unfold generatePlan
    rw [he]
  · intro kvs hk
    have hred : generatePlan parse resp =
        (match fillRequired (Json.obj kvs) with
          | .ok filled => filled
          | .error e =>
              Json.obj [("plan", .str ("Error generating plan: " ++ e)), ("tools", .arr []),
                ("reasoning", .str "Error occurred during planning"), ("error", .str e)]) := by
      unfold generatePlan
      rw [hk]
    rw [hred, fillRequired_obj]
    refine ⟨?_, ?_, ?_⟩
    · show dictGet (fillStep (fillStep (fillStep kvs "plan") "tools") "reasoning") "plan" = _
      rw [dictGet_fillStep_ne _ "reasoning" "plan" (by decide),
        dictGet_fillStep_ne _ "tools" "plan" (by decide), dictGet_fillStep_self]
      rfl
    · show dictGet (fillStep (fillStep (fillStep kvs "plan") "tools") "reasoning") "tools" = _
      rw [dictGet_fillStep_ne _ "reasoning" "tools" (by decide), dictGet_fillStep_self,
        dictGet_fillStep_ne _ "plan" "tools" (by decide)]
      rfl
    · show dictGet (fillStep (fillStep (fillStep kvs "plan") "tools") "reasoning") "reasoning" = _
      rw [dictGet_fillStep_self, dictGet_fillStep_ne _ "tools" "reasoning" (by decide),
        dictGet_fillStep_ne _ "plan" "reasoning" (by decide)]
      rfl

/-- Witness for the amended C8 at `parseC8` / `responseC8`: the present
`reasoning` field is preserved. -/
theorem generate_plan_degrades_witness :
    jsonGet (generatePlan parseC8 responseC8) "reasoning" = some (Json.str "r") := by
  have h := (generate_plan_degrades parseC8 responseC8).2
    [("plan", Json.str "p"), ("reasoning", Json.str "r")] rfl
  exact h.2.2.trans rfl

end TTT
